import Mathlib

/-!
Shallow embedding of the recifind extraction pipeline
(`scripts/generate_recipe_dataset.py` and
`scripts/cache_source_preview_images.py`), with theorems settling the
frozen claims about it.  Text is modelled as `List Char` (one element per
Unicode code point, exactly as Python `str` indexes text); raw bytes are
modelled as `Nat` values below 256.  External collaborators (zlib,
`html.unescape`, `urllib` URL joining/parsing, network fetches, Unicode
NFKD normalisation) enter as explicit function parameters, so theorems
about the surrounding code hold for every behaviour of those
collaborators.
-/

namespace Recifind

/-- Character-list view of a string literal. -/
def lstr (s : String) : List Char := s.data

/-- ASCII lowercasing of one character, the effect of Python `str.lower`
on the ASCII range (the pipeline only ever lowercases before comparing
against ASCII keyword lists). -/
def pyLowerChar (c : Char) : Char :=
  if 'A' ≤ c ∧ c ≤ 'Z' then Char.ofNat (c.toNat + 32) else c

/-- Python `str.lower` on a character list. -/
def pyLower (l : List Char) : List Char := l.map pyLowerChar

/-- Characters Python treats as whitespace (`str.strip`, `str.isspace`
and the regex class `\s` all use `Py_UNICODE_ISSPACE`). -/
def isPySpace (c : Char) : Bool :=
  c.toNat ∈ [9, 10, 11, 12, 13, 28, 29, 30, 31, 32, 0x85, 0xA0,
    0x1680, 0x2000, 0x2001, 0x2002, 0x2003, 0x2004, 0x2005, 0x2006,
    0x2007, 0x2008, 0x2009, 0x200A, 0x2028, 0x2029, 0x202F, 0x205F, 0x3000]

/-- ASCII decimal digit, the regex class `\d` on the inputs in scope. -/
def isDigitChar (c : Char) : Bool := '0' ≤ c ∧ c ≤ '9'

/-- ASCII word character, the regex class `\w` used by `\b` boundaries. -/
def isWordChar (c : Char) : Bool :=
  ('a' ≤ c ∧ c ≤ 'z') ∨ ('A' ≤ c ∧ c ≤ 'Z') ∨ ('0' ≤ c ∧ c ≤ '9') ∨ c = '_'

/-- Python `str.strip()`: drop whitespace from both ends. -/
def pyStrip (l : List Char) : List Char :=
  ((l.dropWhile isPySpace).reverse.dropWhile isPySpace).reverse

/-- Python `str.strip(chars)`: drop the given characters from both ends. -/
def pyStripChars (cs : List Char) (l : List Char) : List Char :=
  ((l.dropWhile (· ∈ cs)).reverse.dropWhile (· ∈ cs)).reverse

/-- Python substring test `needle in hay`. -/
def pyIn (needle hay : List Char) : Bool :=
  (List.range (hay.length + 1)).any fun i => needle.isPrefixOf (hay.drop i)

/-- Python `sep.join` for a one-character separator. -/
def joinWith (sep : Char) (ls : List (List Char)) : List Char :=
  match ls with
  | [] => []
  | l :: rest => l ++ (rest.map (sep :: ·)).flatten

/-- Python `str.split(sep)` for a one-character separator. -/
def pySplitOn (sep : Char) (l : List Char) : List (List Char) :=
  match l with
  | [] => [[]]
  | c :: rest =>
    let tail := pySplitOn sep rest
    if c = sep then [] :: tail
    else
      match tail with
      | [] => [[c]]
      | seg :: segs => (c :: seg) :: segs

/-- Line-boundary characters of Python `str.splitlines`. -/
def isLineBoundary (c : Char) : Bool :=
  c.toNat ∈ [10, 13, 11, 12, 28, 29, 30, 0x85, 0x2028, 0x2029]

/-- Scanner of Python `str.splitlines`: `acc` holds the reversed current
line, `afterCR` records that the previous character was a CR whose line
was already emitted (so a following LF is absorbed, CRLF being one
boundary); the trailing segment is emitted only when non-empty, so a
trailing boundary yields no extra empty line. -/
def splitlinesGo (acc : List Char) (afterCR : Bool) : List Char → List (List Char)
  | [] => if acc = [] then [] else [acc.reverse]
  | c :: rest =>
    if afterCR ∧ c = '\n' then splitlinesGo acc false rest
    else if isLineBoundary c then acc.reverse :: splitlinesGo [] (c = '\r') rest
    else splitlinesGo (c :: acc) false rest

/-- Python `str.splitlines`: the empty string yields no lines. -/
def pySplitlines (l : List Char) : List (List Char) :=
  splitlinesGo [] false l

/-! ### The Byte/Text Decoder: `decode_pdf_string` (lines 268-304) -/

/-- Octal digit test, `esc in "01234567"`. -/
def isOctDigit (c : Char) : Bool := '0' ≤ c ∧ c ≤ '7'

/-- `int(oct_digits, 8)`: numeric value of a string of octal digits. -/
def octValue (ds : List Char) : Nat :=
  ds.foldl (fun a c => a * 8 + (c.toNat - 48)) 0

/-- Position state of `decode_pdf_string`'s scanning loop (lines
271-303): `plain` is the top of the loop; `esc` means a backslash was
just consumed (`i` points at the escaped character); `oct ds` means the
octal digits `ds` (one to three) have been consumed and digit collection
is still open. -/
inductive DecState
  | plain
  | esc
  | oct (ds : List Char)
deriving DecidableEq

/-- Translation table of the simple escapes: `n r t b f` map to their
control characters; every other escaped character — including `(`, `)`
and backslash — is appended literally (`out.append(esc)`). -/
def decMapped (c : Char) : Char :=
  if c = 'n' then '\n'
  else if c = 'r' then '\r'
  else if c = 't' then '\t'
  else if c = 'b' then Char.ofNat 8
  else if c = 'f' then Char.ofNat 12
  else c

/-- One-character-per-step form of the `while i < len(data)` loop of
`decode_pdf_string` (generate_recipe_dataset.py lines 268-304).  In
state `esc`, an octal digit opens digit collection and any other
character is decoded via `decMapped`; in state `oct ds`, a further octal
digit is collected while fewer than three are held (`while j < 3`),
otherwise `chr(int(oct_digits, 8))` is emitted and the current character
is re-examined exactly as the loop re-examines `data[i]` after
`i += j - 1; i += 1`.  A backslash as the final character hits the
`i >= len(data)` break and is discarded. -/
def decGo : DecState → List Char → List Char
  | .plain, [] => []
  | .esc, [] => []
  | .oct ds, [] => [Char.ofNat (octValue ds)]
  | .plain, c :: r => if c = '\\' then decGo .esc r else c :: decGo .plain r
  | .esc, c :: r =>
    if isOctDigit c then decGo (.oct [c]) r else decMapped c :: decGo .plain r
  | .oct ds, c :: r =>
    if isOctDigit c ∧ ds.length < 3 then decGo (.oct (ds ++ [c])) r
    else
      Char.ofNat (octValue ds) ::
        (if c = '\\' then decGo .esc r else c :: decGo .plain r)

/-- `decode_pdf_string` (generate_recipe_dataset.py lines 268-304):
decode a PDF string literal, starting the scan at the top of the loop. -/
def decode_pdf_string (l : List Char) : List Char := decGo .plain l

/-- Whether the scan of `decode_pdf_string`, started in state `st`,
consumes the input cleanly: it never ends in state `esc`, i.e. it never
hits the `i >= len(data)` break on a trailing unpaired backslash. -/
def cleanGo : DecState → List Char → Bool
  | .esc, [] => false
  | _, [] => true
  | .plain, c :: r => cleanGo (if c = '\\' then .esc else .plain) r
  | .esc, c :: r => cleanGo (if isOctDigit c then .oct [c] else .plain) r
  | .oct ds, c :: r =>
    if isOctDigit c ∧ ds.length < 3 then cleanGo (.oct (ds ++ [c])) r
    else cleanGo (if c = '\\' then .esc else .plain) r

/-- The whole input scans cleanly from the top of the loop. -/
def cleanScan (l : List Char) : Bool := cleanGo .plain l

/-- Appending a lone trailing backslash to a cleanly-scanned tail does
not change the output of the decoding loop, from any state. -/
lemma decGo_append_backslash :
    ∀ (s : List Char) (st : DecState), cleanGo st s = true →
      decGo st (s ++ ['\\']) = decGo st s := by
  intro s
  induction s with
  | nil =>
    intro st h
    cases st with
    | plain => simp [decGo]
    | esc => simp [cleanGo] at h
    | oct ds => simp [decGo, isOctDigit]
  | cons c r ih =>
    intro st h
    cases st with
    | plain =>
      by_cases hc : c = '\\' <;> simp_all [decGo, cleanGo]
    | esc =>
      by_cases hc : isOctDigit c <;> simp_all [decGo, cleanGo]
    | oct ds =>
      simp only [decGo, cleanGo] at h ⊢
      split_ifs at h ⊢ with hcd hc
      · exact ih _ h
      · simp [ih _ h]
      · simp [ih _ h]

/-- C7: the string-literal decoder maps every supported escape to its
intended character: backslash-escaped `(`, `)` and backslash decode to
themselves; `\n`, `\r`, `\t`, `\b`, `\f` decode to the corresponding
control characters; an octal escape of one, two or three digits decodes
to the character with that octal code (in particular `\050Hi\051`
decodes to `(Hi)`); and an unrecognized escape (neither one of the named
escape characters nor an octal digit) passes the escaped character
through literally. -/
theorem C7_decoder_escape_table :
    (decode_pdf_string (lstr "\\(") = lstr "(" ∧
     decode_pdf_string (lstr "\\)") = lstr ")" ∧
     decode_pdf_string (lstr "\\\\") = lstr "\\" ∧
     decode_pdf_string (lstr "\\n") = [Char.ofNat 10] ∧
     decode_pdf_string (lstr "\\r") = [Char.ofNat 13] ∧
     decode_pdf_string (lstr "\\t") = [Char.ofNat 9] ∧
     decode_pdf_string (lstr "\\b") = [Char.ofNat 8] ∧
     decode_pdf_string (lstr "\\f") = [Char.ofNat 12] ∧
     decode_pdf_string (lstr "\\050Hi\\051") = lstr "(Hi)") ∧
    ((∀ a : Fin 8, decode_pdf_string ['\\', Char.ofNat (48 + a.val)] = [Char.ofNat a.val]) ∧
     (∀ a b : Fin 8, decode_pdf_string ['\\', Char.ofNat (48 + a.val), Char.ofNat (48 + b.val)]
        = [Char.ofNat (8 * a.val + b.val)]) ∧
     (∀ a b c : Fin 8,
        decode_pdf_string
            ['\\', Char.ofNat (48 + a.val), Char.ofNat (48 + b.val), Char.ofNat (48 + c.val)]
          = [Char.ofNat (64 * a.val + 8 * b.val + c.val)])) ∧
    (∀ c : Char, c ∉ lstr "()\\nrtbf" → isOctDigit c = false →
       decode_pdf_string ['\\', c] = [c]) := by
  refine ⟨by decide, ⟨by decide, by decide, by decide⟩, ?_⟩
  intro c h1 h2
  simp only [lstr, String.data, List.mem_cons, not_or] at h1
  obtain ⟨e1, e2, e3, e4, e5, e6, e7, e8, -⟩ := h1
  simp [decode_pdf_string, decGo, decMapped, h2, e4, e5, e6, e7, e8]

/-- Witness for C7 at concrete inputs: the escape `\q` is unrecognized
and passes `q` through; `\52` decodes to the asterisk. -/
theorem C7_decoder_escape_table_witness :
    decode_pdf_string ['\\', 'q'] = ['q'] ∧
    decode_pdf_string ['\\', Char.ofNat 53, Char.ofNat 50] = [Char.ofNat 42] :=
  ⟨C7_decoder_escape_table.2.2 'q' (by decide) (by decide),
   C7_decoder_escape_table.2.1.2.1 5 2⟩

/-- C10: the string-literal decoder is total (it is defined by
terminating recursion on every input, malformed ones included), and for
every input ending in a single unpaired backslash — the scan of the rest
of the input consumes it cleanly, so the final backslash is reached as a
fresh character with nothing after it — the decoder returns the decoding
of the prefix before that backslash, silently discarding the trailing
backslash instead of raising. -/
theorem C10_decoder_trailing_backslash :
    ∀ s : List Char, cleanScan s = true →
      decode_pdf_string (s ++ ['\\']) = decode_pdf_string s :=
  fun s h => decGo_append_backslash s .plain h

/-- Witness for C10 at a concrete input: `ab\n0` scans cleanly, and
appending a lone trailing backslash leaves the decoding unchanged. -/
theorem C10_decoder_trailing_backslash_witness :
    cleanScan (lstr "ab\\n0") = true ∧
    decode_pdf_string (lstr "ab\\n0" ++ ['\\']) = decode_pdf_string (lstr "ab\\n0") :=
  ⟨by decide, C10_decoder_trailing_backslash (lstr "ab\\n0") (by decide)⟩

/-! ### The Title/Reference Pairer: `parse_pdf_pairs` lines 338-374 -/

/-- Matcher for `\d{1,2}` followed by a non-digit separator, with the
regex's greedy backtracking (two digits tried first); returns the
remainder after the separator.  Since the separator is never a digit the
one-digit backtrack can only succeed when the second character is the
separator itself. -/
def matchDigits12Then (sep : Char) (l : List Char) : Option (List Char) :=
  match l with
  | d1 :: rest =>
    if isDigitChar d1 then
      match rest with
      | d2 :: rest2 =>
        if isDigitChar d2 then
          match rest2 with
          | s :: rest3 => if s = sep then some rest3 else none
          | [] => none
        else if d2 = sep then some rest2 else none
      | [] => none
    else none
  | [] => none

/-- `re.match(r"\d{1,2}/\d{1,2}/\d{2}", line)`: the line starts with a
date-like pattern. -/
def isDateLine (l : List Char) : Bool :=
  match matchDigits12Then '/' l with
  | some r1 =>
    match matchDigits12Then '/' r1 with
    | some r2 =>
      match r2 with
      | a :: b :: _ => isDigitChar a ∧ isDigitChar b
      | _ => false
    | none => false
  | none => false

/-- `re.match(r"\d{1,2}:\d{2}", line)`: the line starts with a
time-like pattern. -/
def isTimeLine (l : List Char) : Bool :=
  match matchDigits12Then ':' l with
  | some r =>
    match r with
    | a :: b :: _ => isDigitChar a ∧ isDigitChar b
    | _ => false
  | none => false

/-- `lower in {"recipies", "recipes"} or lower.startswith("page ")`
(line 344): the document footer label or a page label. -/
def isFooterLine (l : List Char) : Bool :=
  pyLower l = lstr "recipies" ∨ pyLower l = lstr "recipes" ∨
    (lstr "page ").isPrefixOf (pyLower l)

/-- One noise category of the pairer: footer/page label, date pattern
or time pattern. -/
def isNoiseLine (l : List Char) : Bool :=
  isFooterLine l ∨ isDateLine l ∨ isTimeLine l

/-- The inner URL-accumulation loop (lines 353-365): subsequent lines
are appended verbatim to the URL until a line is itself a URL, contains
a space, is a page label, or is a date/time line; that line is left
unconsumed for the outer loop. -/
def urlAccum (url : List Char) : List (List Char) → List Char × List (List Char)
  | [] => (url, [])
  | nxt :: rest =>
    if (lstr "https://").isPrefixOf nxt then (url, nxt :: rest)
    else if ' ' ∈ nxt then (url, nxt :: rest)
    else if (lstr "page ").isPrefixOf (pyLower nxt) then (url, nxt :: rest)
    else if isDateLine nxt ∨ isTimeLine nxt then (url, nxt :: rest)
    else urlAccum (url ++ nxt) rest

/-- The outer pairing loop of `parse_pdf_pairs` (lines 338-374): a
footer/page label clears the pending title; a date/time line is skipped;
a URL line opens accumulation and on success emits a pair when a
non-empty pending title exists (which is then cleared); any other line
becomes the pending title.  The fuel argument bounds the number of
outer iterations; each iteration consumes at least one line, so
`length + 1` fuel always suffices. -/
def pairGo : Nat → Option (List Char) → List (List Char) → List (List Char × List Char)
  | 0, _, _ => []
  | _ + 1, _, [] => []
  | fuel + 1, title, line :: rest =>
    if isFooterLine line then pairGo fuel none rest
    else if isDateLine line ∨ isTimeLine line then pairGo fuel title rest
    else if (lstr "https://").isPrefixOf line then
      let acc := urlAccum line rest
      match title with
      | some t =>
        if t ≠ [] ∧ acc.1 ≠ [] then (t, acc.1) :: pairGo fuel none acc.2
        else pairGo fuel (some t) acc.2
      | none => pairGo fuel none acc.2
    else pairGo fuel (some line) rest

/-- The pairing pass of `parse_pdf_pairs` on an already-built line
list. -/
def parse_pdf_pairs_lines (lines : List (List Char)) : List (List Char × List Char) :=
  pairGo (lines.length + 1) none lines

/-- C4 counterexample: on the five fragment lines of the claim the
pairer joins the whitespace-free title line `Salad` onto the first URL
(it satisfies every accumulation condition), so the output is a single
pair and not the two pairs the claim states. -/
theorem C4_pairer_counterexample :
    parse_pdf_pairs_lines
        [lstr "Soup", lstr "https://x.example/", lstr "Salad",
         lstr "https://y.example/a", lstr "b"] ≠
      [(lstr "Soup", lstr "https://x.example/"),
       (lstr "Salad", lstr "https://y.example/ab")] := by decide

/-- C4 amended: on those lines the pairer produces exactly one pair,
`("Soup", "https://x.example/Salad")`: the whitespace-free line `Salad`
is joined onto the first URL, and the second URL block (which absorbs
`b`) is discarded because no pending title remains. -/
theorem C4_pairer_join :
    parse_pdf_pairs_lines
        [lstr "Soup", lstr "https://x.example/", lstr "Salad",
         lstr "https://y.example/a", lstr "b"] =
      [(lstr "Soup", lstr "https://x.example/Salad")] := by decide

/-- C5 counterexample: dropping the noise lines is not behaviour
preserving — a footer label clears the pending title, so
`["Soup", "recipes", "https://x.example/"]` yields no pair while the
same sequence with the noise line removed yields one. -/
theorem C5_noise_counterexample :
    parse_pdf_pairs_lines
        [lstr "Soup", lstr "recipes", lstr "https://x.example/"] = [] ∧
    (( [lstr "Soup", lstr "recipes", lstr "https://x.example/"].filter
        (fun l => ¬ isNoiseLine l)) =
      [lstr "Soup", lstr "https://x.example/"]) ∧
    parse_pdf_pairs_lines [lstr "Soup", lstr "https://x.example/"] =
      [(lstr "Soup", lstr "https://x.example/")] := by decide

/-- C5 amended: outside URL accumulation a date- or time-pattern line is
skipped with no other effect (the pending title and the emitted pairs
are unchanged), but a footer/page label clears the pending title rather
than being merely dropped; hence a pending title followed by a footer
label and a URL yields no pair. -/
theorem C5_noise_step :
    ∀ (fuel : Nat) (title : Option (List Char)) (l : List Char) (rest : List (List Char)),
      (isFooterLine l = true →
        pairGo (fuel + 1) title (l :: rest) = pairGo fuel none rest) ∧
      (isFooterLine l = false → (isDateLine l ∨ isTimeLine l) = true →
        pairGo (fuel + 1) title (l :: rest) = pairGo fuel title rest) := by
  intro fuel title l rest
  constructor
  · intro h; simp [pairGo, h]
  · intro h1 h2; simp [pairGo, h1, h2]

/-- Witness for C5's amended step equations at concrete lines. -/
theorem C5_noise_step_witness :
    pairGo 3 (some (lstr "Soup")) [lstr "recipes", lstr "x"] = pairGo 2 none [lstr "x"] ∧
    pairGo 3 (some (lstr "Soup")) [lstr "1/2/24", lstr "x"] =
      pairGo 2 (some (lstr "Soup")) [lstr "x"] :=
  ⟨(C5_noise_step 2 (some (lstr "Soup")) (lstr "recipes") [lstr "x"]).1 (by decide),
   (C5_noise_step 2 (some (lstr "Soup")) (lstr "1/2/24") [lstr "x"]).2 (by decide) (by decide)⟩

/-! ### The Free-Text Recipe Segmenter (lines 15-114, 410-549) -/

/-- Case-insensitive character comparison (regex `re.IGNORECASE` and the
effect of lowercasing both sides, ASCII range). -/
def ciEqChar (a b : Char) : Bool := pyLowerChar a = pyLowerChar b

/-- Case-insensitive prefix test. -/
def ciPre : List Char → List Char → Bool
  | [], _ => true
  | _ :: _, [] => false
  | p :: ps, c :: cs => ciEqChar p c ∧ ciPre ps cs

/-- `INGREDIENT_KEYWORDS` (lines 15-27). -/
def INGREDIENT_KEYWORDS : List (List Char) :=
  [lstr "you need", lstr "ingredients", lstr "ingredient list", lstr "what you need",
   lstr "here" ++ Char.ofNat 39 :: lstr "s what you need", lstr "you will need",
   lstr "shopping list", lstr "for the salad", lstr "for the dressing", lstr "for the sauce",
   lstr "for the marinade"]

/-- `INGREDIENT_STOPWORDS` (lines 28-50). -/
def INGREDIENT_STOPWORDS : List (List Char) :=
  [lstr "how", lstr "method", lstr "instructions", lstr "directions", lstr "steps",
   lstr "prep", lstr "preparation", lstr "makes", lstr "serves", lstr "macros",
   lstr "calories", lstr "enjoy", lstr "note", lstr "notes", lstr "tip", lstr "tips",
   lstr "storage", lstr "cook", lstr "bake", lstr "fry", lstr "to make"]

/-- `INSTRUCTION_KEYWORDS` (lines 52-64). -/
def INSTRUCTION_KEYWORDS : List (List Char) :=
  [lstr "how", lstr "instructions", lstr "method", lstr "directions", lstr "steps",
   lstr "to make", lstr "prep", lstr "preparation", lstr "cook", lstr "bake", lstr "finish"]

/-- `INSTRUCTION_TERMINATORS` (lines 66-75). -/
def INSTRUCTION_TERMINATORS : List (List Char) :=
  [lstr "serves", lstr "macros", lstr "calories", lstr "enjoy", lstr "notes", lstr "note",
   lstr "tag", lstr "share"]

/-- `MEASUREMENT_TOKENS` (lines 77-112). -/
def MEASUREMENT_TOKENS : List (List Char) :=
  [lstr "cup", lstr "cups", lstr "tsp", lstr "teaspoon", lstr "teaspoons", lstr "tbsp",
   lstr "tablespoon", lstr "tablespoons", lstr "g", lstr "gram", lstr "grams", lstr "kg",
   lstr "ml", lstr "l", lstr "oz", lstr "lb", lstr "lbs", lstr "clove", lstr "cloves",
   lstr "slice", lstr "slices", lstr "sprig", lstr "sprigs", lstr "bunch", lstr "handful",
   lstr "packet", lstr "pack", lstr "package", lstr "can", lstr "tin", lstr "fillet",
   lstr "fillets", lstr "stick", lstr "sticks"]

/-- Whether `text` has a word character at index `i` (out of range
counts as a non-word position). -/
def wordAt (text : List Char) (i : Nat) : Bool :=
  match text.drop i with
  | c :: _ => isWordChar c
  | [] => false

/-- The regex word boundary `\b` at position `i` of `text`: exactly one
of the two adjacent positions holds a word character. -/
def boundaryAt (text : List Char) : Nat → Bool
  | 0 => wordAt text 0
  | j + 1 => wordAt text j != wordAt text (j + 1)

/-- `MEASUREMENT_PATTERN.search(lower)` (line 114): some measurement
token occurs with a word boundary on each side. -/
def measurementSearch (text : List Char) : Bool :=
  (List.range (text.length + 1)).any fun i =>
    MEASUREMENT_TOKENS.any fun tok =>
      boundaryAt text i ∧ tok.isPrefixOf (text.drop i) ∧ boundaryAt text (i + tok.length)

/-- `re.match(r"^[0-9]+[).]", line)`: digits then `)` or `.`.  The
greedy digit run must be maximal, since a shorter run would leave a
digit where `)` or `.` is required. -/
def numberedListStart (line : List Char) : Bool :=
  let ds := line.takeWhile isDigitChar
  decide (ds ≠ []) &&
    (match line.drop ds.length with
     | c :: _ => decide (c = ')' ∨ c = '.')
     | [] => false)

/-- `re.match(r"^[\-•–—]\s*(.+)$", line)` followed by `.group(1).strip()`
(lines 452-456): the pipeline's lines never contain line breaks (they
are produced by splitting on them), so the match succeeds exactly when a
bullet character is followed by at least one character, and the stripped
group equals the stripped remainder. -/
def bulletMatch (line : List Char) : Option (List Char) :=
  match line with
  | b :: rest =>
    if (b = '-' ∨ b = '•' ∨ b = '–' ∨ b = '—') ∧ rest ≠ [] then some (pyStrip rest)
    else none
  | [] => none

/-- The `for idx, line in enumerate(lines)` search for the first line
containing an ingredient keyword (lines 424-429): returns `idx + 1`, or
0 when no keyword occurs anywhere. -/
def findIngStartGo (idx : Nat) : List (List Char) → Nat
  | [] => 0
  | line :: rest =>
    if INGREDIENT_KEYWORDS.any (fun k => pyIn k (pyLower line)) then idx + 1
    else findIngStartGo (idx + 1) rest

/-- Sub-heading prefixes of the ingredient scan (lines 458-467). -/
def subheadingStart (lower : List Char) : Bool :=
  (lstr "optional toppings").isPrefixOf lower ∨ (lstr "optional:").isPrefixOf lower ∨
    (lstr "toppings").isPrefixOf lower ∨ (lstr "garnish").isPrefixOf lower ∨
    (lstr "for the").isPrefixOf lower

/-- The `while i < len(lines)` ingredient scan (lines 431-480): `i` is
the current index, the list argument is `lines.drop i`, `acc` the
collected ingredients; returns `(ingredients, i)` at the loop's exit
point exactly as the source breaks or falls off the end. -/
def ingScan (i : Nat) (acc : List (List Char)) : List (List Char) → List (List Char) × Nat
  | [] => (acc, i)
  | line :: rest =>
    let lower := pyLower line
    if (lstr "#").isPrefixOf lower ∨ (lstr "http").isPrefixOf lower then
      if acc ≠ [] then (acc, i) else ingScan (i + 1) acc rest
    else if INGREDIENT_STOPWORDS.any (fun s => s.isPrefixOf lower ∨ lower = s) then
      if acc ≠ [] then (acc, i) else ingScan (i + 1) acc rest
    else if numberedListStart line ∧ acc ≠ [] then (acc, i)
    else
      match bulletMatch line with
      | some ing => ingScan (i + 1) (acc ++ [ing]) rest
      | none =>
        if subheadingStart lower then ingScan (i + 1) (acc ++ [line]) rest
        else if measurementSearch lower ∨ line.any isDigitChar then
          ingScan (i + 1) (acc ++ [line]) rest
        else if acc ≠ [] then (acc, i)
        else ingScan (i + 1) acc rest

/-- The last-resort regex `(ingredients[^:]*:)(.+)` with
`IGNORECASE | DOTALL` (lines 485-489) applied to the joined text: at the
leftmost case-insensitive occurrence of `ingredients`, `[^:]*` runs to
the first following colon and group 2 is the non-empty remainder. -/
def fallbackScan : List Char → Option (List Char)
  | [] => none
  | c :: rest =>
    if ciPre (lstr "ingredients") (c :: rest) then
      let after := ((c :: rest).drop 11)
      let pre := after.takeWhile (· ≠ ':')
      match after.drop pre.length with
      | _ :: g2 => if g2 ≠ [] then some g2 else fallbackScan rest
      | [] => fallbackScan rest
    else fallbackScan rest

/-- `extract_ingredients_section` (lines 423-500): keyword-anchored
forward scan; if it collects nothing, fall back to splitting the text
after an `ingredients...:` pattern on commas, trimming `" .;-"`. -/
def extract_ingredients_section (lines : List (List Char)) : List (List Char) × Nat :=
  let start := findIngStartGo 0 lines
  let scanned := ingScan start [] (lines.drop start)
  if scanned.1 ≠ [] then scanned
  else
    match fallbackScan (joinWith '\n' lines) with
    | some g2 =>
      let restLine := (pySplitOn '\n' g2).headD []
      let tokens :=
        ((pySplitOn ',' restLine).map (pyStripChars (lstr " .;-"))).filter (· ≠ [])
      if tokens ≠ [] then (tokens, start) else ([], start)
    | none => ([], start)

/-- The digit part of the numbered-step regex
`^(?:step\s*)?(\d+)[)\.:\-]?\s*(.+)$` (line 523), after the optional
`step` prefix has been handled: a maximal digit run, an optional
separator, then `group(2).strip()`.  When the line ends right after two
or more digits, backtracking shortens the digit run and the last digit
becomes the group; a lone digit with nothing after it fails.  The
stripped group always equals the stripped remainder after the consumed
separator. -/
def numericDigitsMatch (t : List Char) : Option (List Char) :=
  let ds := t.takeWhile isDigitChar
  if ds = [] then none
  else
    match t.drop ds.length with
    | [] => if 2 ≤ ds.length then some (ds.drop (ds.length - 1)) else none
    | p :: w =>
      if (p = ')' ∨ p = '.' ∨ p = ':' ∨ p = '-') ∧ w ≠ [] then some (pyStrip w)
      else some (pyStrip (p :: w))

/-- The full numbered-step matcher: an optional case-insensitive `step`
and whitespace, then digits (line 523).  If `step` is present but no
digits follow, the no-prefix alternative cannot start with a digit
either, so the match fails. -/
def numericStepMatch (line : List Char) : Option (List Char) :=
  if ciPre (lstr "step") line then numericDigitsMatch ((line.drop 4).dropWhile isPySpace)
  else numericDigitsMatch line

/-- The `while i < len(lines)` step scan (lines 503-542): `#`/URL lines
end the scan; a terminator keyword ends it only once steps exist; an
instruction keyword on a non-numbered line is skipped; a numbered line
appends its remainder; a bullet appends only if steps exist; any other
line is joined onto the previous step when one exists, else skipped. -/
def stepScan (acc : List (List Char)) : List (List Char) → List (List Char)
  | [] => acc
  | line :: rest =>
    let lower := pyLower line
    if (lstr "#").isPrefixOf lower ∨ (lstr "http").isPrefixOf lower then acc
    else if (INSTRUCTION_TERMINATORS.any fun t => pyIn t lower) ∧ acc ≠ [] then acc
    else if (INSTRUCTION_KEYWORDS.any fun k => pyIn k lower) ∧ ¬numberedListStart line then
      stepScan acc rest
    else
      match numericStepMatch line with
      | some body => stepScan (acc ++ [body]) rest
      | none =>
        match bulletMatch line with
        | some b =>
          if acc ≠ [] then stepScan (acc ++ [b]) rest
          else stepScan acc rest
        | none =>
          if acc ≠ [] then
            stepScan (acc.dropLast ++ [pyStrip ((acc.getLast?.getD []) ++ ' ' :: line)]) rest
          else stepScan acc rest

/-- `extract_steps_section` (lines 503-542), beginning at the ingredient
scan's stop index. -/
def extract_steps_section (lines : List (List Char)) (start : Nat) : List (List Char) :=
  stepScan [] (lines.drop start)

/-- The line builder of `prepare_lines` (lines 413-419): skip empty
lines and lines equal to the last kept line. -/
def prepLinesGo (last : Option (List Char)) : List (List Char) → List (List Char)
  | [] => []
  | line :: rest =>
    if line = [] then prepLinesGo last rest
    else if some line = last then prepLinesGo last rest
    else line :: prepLinesGo (some line) rest

/-- `prepare_lines` (lines 410-420): CR→LF, split on LF, strip each
line, drop empties and immediately-repeated duplicates. -/
def prepare_lines (description : List Char) : List (List Char) :=
  prepLinesGo none
    ((pySplitOn '\n' (description.map fun c => if c = '\r' then '\n' else c)).map pyStrip)

/-- `extract_recipe_content` (lines 545-549). -/
def extract_recipe_content (description : List Char) :
    List (List Char) × List (List Char) :=
  let lines := prepare_lines description
  let ing := extract_ingredients_section lines
  (ing.1, extract_steps_section lines ing.2)

/-- C3: ingredient-section extraction on the claim's five lines returns
the two bullet remainders and stop index 3, which indexes the line
`Method`. -/
theorem C3_ingredient_extraction :
    extract_ingredients_section
        [lstr "Ingredients:", lstr "- 2 cups flour", lstr "- 1 egg",
         lstr "Method", lstr "Mix well"] =
      ([lstr "2 cups flour", lstr "1 egg"], 3) ∧
    [lstr "Ingredients:", lstr "- 2 cups flour", lstr "- 1 egg",
       lstr "Method", lstr "Mix well"][3]? = some (lstr "Method") := by decide

/-! ### The Tag/Meal-Type Classifier (lines 116-236, 552-611) -/

/-- `MEAT_KEYWORDS` (lines 116-154); a Python set, used only through
`any`, so the iteration order is irrelevant. -/
def MEAT_KEYWORDS : List (List Char) :=
  [lstr "beef", lstr "chicken", lstr "turkey", lstr "pork", lstr "lamb", lstr "mutton",
   lstr "bacon", lstr "ham", lstr "sausage", lstr "duck", lstr "veal", lstr "prosciutto",
   lstr "salami", lstr "anchovy", lstr "anchovies", lstr "tuna", lstr "salmon", lstr "cod",
   lstr "trout", lstr "shrimp", lstr "prawn", lstr "prawns", lstr "lobster", lstr "crab",
   lstr "clam", lstr "clams", lstr "mussel", lstr "mussels", lstr "octopus", lstr "squid",
   lstr "calamari", lstr "fish", lstr "seafood", lstr "oxtail", lstr "short rib",
   lstr "short ribs", lstr "steak"]

/-- `BREAKFAST_KEYWORDS` (lines 156-170). -/
def BREAKFAST_KEYWORDS : List (List Char) :=
  [lstr "breakfast", lstr "brunch", lstr "pancake", lstr "oat", lstr "granola",
   lstr "smoothie bowl", lstr "overnight oats", lstr "toast", lstr "waffle", lstr "frittata",
   lstr "egg muffin", lstr "omelette", lstr "bagel"]

/-- `DESSERT_KEYWORDS` (lines 172-192). -/
def DESSERT_KEYWORDS : List (List Char) :=
  [lstr "cake", lstr "brownie", lstr "dessert", lstr "cookie", lstr "tart", lstr "pie",
   lstr "ice cream", lstr "pudding", lstr "cheesecake", lstr "cupcake", lstr "mousse",
   lstr "custard", lstr "sorbet", lstr "lava cake", lstr "sweet roll", lstr "pastry",
   lstr "crepe", lstr "donut", lstr "banana bread"]

/-- `DRINK_KEYWORDS` (lines 194-208). -/
def DRINK_KEYWORDS : List (List Char) :=
  [lstr "sangria", lstr "cocktail", lstr "mocktail", lstr "smoothie", lstr "latte",
   lstr "tea", lstr "lemonade", lstr "juice", lstr "spritz", lstr "punch", lstr "margarita",
   lstr "mojito", lstr "paloma"]

/-- `MEAL_KEYWORDS` (lines 210-214), in dict insertion order. -/
def MEAL_KEYWORDS : List (List Char × List (List Char)) :=
  [(lstr "lunch", [lstr "lunch", lstr "snack", lstr "nibbles", lstr "bites"]),
   (lstr "dinner", [lstr "dinner"]),
   (lstr "brunch", [lstr "brunch"])]

/-- `COURSE_KEYWORDS` (lines 216-230), in dict insertion order. -/
def COURSE_KEYWORDS : List (List Char × List (List Char)) :=
  [(lstr "soup", [lstr "soup", lstr "ramen", lstr "pho", lstr "bisque"]),
   (lstr "salad", [lstr "salad"]),
   (lstr "pasta", [lstr "pasta", lstr "spaghetti", lstr "lasagna", lstr "tagliatelle",
     lstr "penne", lstr "pappardelle", lstr "mac"]),
   (lstr "noodles", [lstr "noodle", lstr "udon", lstr "lo mein", lstr "pad thai",
     lstr "yakisoba"]),
   (lstr "stew", [lstr "stew", lstr "braise"]),
   (lstr "curry", [lstr "curry"]),
   (lstr "stir-fry", [lstr "stir fry", lstr "stir-fry"]),
   (lstr "bowl", [lstr "bowl"]),
   (lstr "sandwich", [lstr "sandwich", lstr "wrap", lstr "burger"]),
   (lstr "rice", [lstr "rice", lstr "risotto", lstr "paella", lstr "pilaf"]),
   (lstr "pizza", [lstr "pizza", lstr "flatbread"]),
   (lstr "tacos", [lstr "taco"]),
   (lstr "appetizer", [lstr "appetizer", lstr "starter", lstr "bites"])]

/-- `re.search(rf"\b{re.escape(keyword)}s?\b", text)`: a word-boundary
occurrence of the keyword with an optional plural `s`. -/
def kwSearch (text kw : List Char) : Bool :=
  (List.range (text.length + 1)).any fun i =>
    boundaryAt text i && kw.isPrefixOf (text.drop i) &&
      (boundaryAt text (i + kw.length) ||
        ((match text.drop (i + kw.length) with
          | c :: _ => decide (c = 's')
          | [] => false) &&
          boundaryAt text (i + kw.length + 1)))

/-- `keyword_in_text` (lines 233-236): multi-word keywords by substring
containment, single-word keywords by boundary search with optional
plural. -/
def keyword_in_text (text kw : List Char) : Bool :=
  if ' ' ∈ kw then pyIn kw text else kwSearch text kw

/-- The lower-cased blob `f"{title} {' '.join(ingredients)}".lower()`
(lines 553 and 587). -/
def tagBlob (title : List Char) (ingredients : List (List Char)) : List Char :=
  pyLower (title ++ ' ' :: joinWith ' ' ingredients)

/-- Insertion into a code-point-lexicographically sorted list. -/
def strLt : List Char → List Char → Bool
  | [], [] => false
  | [], _ :: _ => true
  | _ :: _, [] => false
  | a :: as, b :: bs => if a < b then true else if b < a then false else strLt as bs

/-- One insertion step of the sort modelling Python `sorted`. -/
def insertSorted (s : List Char) : List (List Char) → List (List Char)
  | [] => [s]
  | t :: ts => if strLt s t then s :: t :: ts else t :: insertSorted s ts

/-- Sorting by code point, Python `sorted`. -/
def sortStrs (l : List (List Char)) : List (List Char) := l.foldr insertSorted []

/-- Deduplication, the effect of collecting into a Python `set`. -/
def dedupKeep : List (List Char) → List (List Char)
  | [] => []
  | s :: rest =>
    let d := dedupKeep rest
    if s ∈ d then d else s :: d

/-- `sorted(set(...))`. -/
def sortedSet (l : List (List Char)) : List (List Char) := sortStrs (dedupKeep l)

/-- `infer_tags` (lines 552-583): keyword membership per tag family over
the title+ingredients blob; `vegetarian` is added exactly when no meat
keyword is present; the result is the sorted deduplicated tag set. -/
def infer_tags (title : List Char) (ingredients : List (List Char)) : List (List Char) :=
  let text := tagBlob title ingredients
  let kt := keyword_in_text text
  let tags :=
    (MEAL_KEYWORDS.filterMap fun p => if p.2.any kt then some p.1 else none) ++
    (if BREAKFAST_KEYWORDS.any kt then [lstr "breakfast"] else []) ++
    (if DESSERT_KEYWORDS.any kt then [lstr "dessert"] else []) ++
    (if DRINK_KEYWORDS.any kt then [lstr "drink"] else []) ++
    (COURSE_KEYWORDS.filterMap fun p => if p.2.any kt then some p.1 else none) ++
    (if [lstr "roast", lstr "sheet pan", lstr "tray bake", lstr "roasted"].any kt then
      [lstr "roast"] else []) ++
    (if [lstr "grill", lstr "grilled", lstr "bbq", lstr "barbecue"].any kt then
      [lstr "grill"] else []) ++
    (if MEAT_KEYWORDS.any kt then [] else [lstr "vegetarian"]) ++
    (if kt (lstr "vegan") then [lstr "vegan"] else [])
  sortedSet tags

/-- `infer_meal_types` (lines 586-611): direct keyword checks plus tag
membership; when nothing matched, the fixed fallback precedence
salad→lunch, soup→dinner, dessert tag→dessert, default dinner. -/
def infer_meal_types (title : List Char) (ingredients : List (List Char))
    (tags : List (List Char)) : List (List Char) :=
  let text := tagBlob title ingredients
  let kt := keyword_in_text text
  let lowered := tags.map pyLower
  let m1 :=
    (if lstr "breakfast" ∈ lowered ∨ kt (lstr "breakfast") then [lstr "breakfast"] else []) ++
    (if lstr "brunch" ∈ lowered ∨ kt (lstr "brunch") then [lstr "brunch"] else []) ++
    (if lstr "dessert" ∈ lowered ∨ kt (lstr "dessert") then [lstr "dessert"] else []) ++
    (MEAL_KEYWORDS.filterMap fun p => if p.2.any kt then some p.1 else none)
  let mt :=
    if m1 ≠ [] then m1
    else if lstr "salad" ∈ lowered ∨ kt (lstr "salad") then [lstr "lunch"]
    else if lstr "soup" ∈ lowered ∨ kt (lstr "soup") then [lstr "dinner"]
    else if lstr "dessert" ∈ lowered then [lstr "dessert"]
    else [lstr "dinner"]
  sortedSet mt

lemma mem_insertSorted (x s : List Char) (l : List (List Char)) :
    x ∈ insertSorted s l ↔ x = s ∨ x ∈ l := by
  induction l with
  | nil => simp [insertSorted]
  | cons t ts ih =>
    simp only [insertSorted]
    split
    · simp [List.mem_cons]
    · simp only [List.mem_cons, ih]
      tauto

lemma mem_sortStrs (x : List Char) (l : List (List Char)) :
    x ∈ sortStrs l ↔ x ∈ l := by
  induction l with
  | nil => simp [sortStrs]
  | cons t ts ih => simp_all [sortStrs, mem_insertSorted]

lemma mem_dedupKeep (x : List Char) (l : List (List Char)) :
    x ∈ dedupKeep l ↔ x ∈ l := by
  induction l generalizing x with
  | nil => simp [dedupKeep]
  | cons t ts ih =>
    simp only [dedupKeep]
    split
    · rename_i h
      rw [ih x, List.mem_cons]
      exact ⟨Or.inr, fun hx => hx.elim (fun e => e ▸ (ih t).1 h) id⟩
    · simp [List.mem_cons, ih]

lemma mem_sortedSet (x : List Char) (l : List (List Char)) :
    x ∈ sortedSet l ↔ x ∈ l := by
  simp [sortedSet, mem_sortStrs, mem_dedupKeep]

lemma notin_filterMap_cond (x : List Char) (ps : List (List Char × List (List Char)))
    (kt : List Char → Bool) (hx : ∀ p ∈ ps, p.1 ≠ x) :
    x ∉ ps.filterMap fun p => if p.2.any kt then some p.1 else none := by
  intro h
  obtain ⟨p, hp, he⟩ := List.mem_filterMap.1 h
  split at he
  · exact hx p hp (Option.some.inj he)
  · exact Option.noConfusion he

lemma notin_cond_singleton (x y : List Char) (c : Prop) [Decidable c] (hxy : y ≠ x) :
    x ∉ (if c then [y] else ([] : List (List Char))) := by
  split
  · simp only [List.mem_singleton]
    exact fun e => hxy e.symm
  · simp

/-- C6: the classifier adds `vegetarian` exactly when no meat keyword
occurs in the lower-cased title+ingredients blob; `Beef Stew` gets the
`stew` tag and never `vegetarian`; `Garden Salad` gets `vegetarian` and
its inferred meal types are exactly `lunch`, via the salad fallback. -/
theorem C6_classifier_vegetarian :
    (∀ (title : List Char) (ingredients : List (List Char)),
        lstr "vegetarian" ∈ infer_tags title ingredients ↔
          ¬MEAT_KEYWORDS.any (keyword_in_text (tagBlob title ingredients)) = true) ∧
    lstr "stew" ∈ infer_tags (lstr "Beef Stew") [] ∧
    lstr "vegetarian" ∉ infer_tags (lstr "Beef Stew") [] ∧
    lstr "vegetarian" ∈ infer_tags (lstr "Garden Salad") [] ∧
    infer_meal_types (lstr "Garden Salad") [] (infer_tags (lstr "Garden Salad") []) =
      [lstr "lunch"] := by
  refine ⟨?_, by decide, by decide, by decide, by decide⟩
  intro t i
  by_cases hm : MEAT_KEYWORDS.any (keyword_in_text (tagBlob t i)) = true
  · simp only [hm, not_true, iff_false]
    intro hmem
    simp only [infer_tags, mem_sortedSet, List.mem_append, hm, if_true] at hmem
    rcases hmem with ((((((((h | h) | h) | h) | h) | h) | h) | h) | h)
    · exact notin_filterMap_cond _ _ _ (by decide) h
    · exact notin_cond_singleton _ _ _ (by decide) h
    · exact notin_cond_singleton _ _ _ (by decide) h
    · exact notin_cond_singleton _ _ _ (by decide) h
    · exact notin_filterMap_cond _ _ _ (by decide) h
    · exact notin_cond_singleton _ _ _ (by decide) h
    · exact notin_cond_singleton _ _ _ (by decide) h
    · exact absurd h (List.not_mem_nil _)
    · exact notin_cond_singleton _ _ _ (by decide) h
  · simp [infer_tags, mem_sortedSet, hm]

/-! ### The Record Assembler: `main` (lines 614-664)

The loop body is embedded with its external collaborators as function
parameters: `fetchHtml` stands for `fetch_html` (a curl subprocess),
`metaValue` for the regex-driven `extract_meta_value` (lines 399-407),
`normUrl` for `normalize_instagram_url` (lines 239-265, built on
`urllib.parse`), and `nfkd` for `unicodedata.normalize("NFKD", ·)`.
The claims about the loop hold for every behaviour of these functions. -/

/-- `to_ascii` (lines 377-380): NFKD-normalise, then drop every
non-ASCII code point (`encode("ascii", "ignore")`). -/
def to_ascii (nfkd : List Char → List Char) (s : List Char) : List Char :=
  (nfkd s).filter fun c => c.toNat < 128

/-- Python `a or b` on an optional string and an optional fallback:
`a` wins exactly when it is present and non-empty. -/
def pyOrOpt (a b : Option (List Char)) : Option (List Char) :=
  match a with
  | some s => if s ≠ [] then some s else b
  | none => b

/-- Python `a or b` on an optional string and a string fallback. -/
def pyOrStr (a : Option (List Char)) (b : List Char) : List Char :=
  match a with
  | some s => if s ≠ [] then s else b
  | none => b

/-- The fixed advisory string of line 661. -/
def NOTES_TEXT : List Char := lstr "Ingredients not detected automatically."

/-- One emitted recipe record (the `entry` dict of lines 648-663);
conditionally-set keys are `Option` fields. -/
structure RecipeEntry where
  title : List Char
  sourceUrl : List Char
  imageUrl : List Char
  ingredients : List (List Char)
  steps : Option (List (List Char))
  tags : Option (List (List Char))
  mealTypes : Option (List (List Char))
  notes : Option (List Char)
  descriptionPreview : Option (List Char)
deriving DecidableEq

/-- One appended failure record (lines 625, 629, 635). -/
structure FailureRecord where
  title : List Char
  url : List Char
  reason : List Char
deriving DecidableEq

/-- The body of the `for idx, (title, url) in enumerate(pairs)` loop
(lines 622-664): either one recipe entry or one failure record. -/
def main_process_item (fetchHtml : List Char → Option (List Char))
    (metaValue : List Char → List Char → Option (List Char))
    (normUrl nfkd : List Char → List Char)
    (title url : List Char) : RecipeEntry ⊕ FailureRecord :=
  match fetchHtml url with
  | none => .inr ⟨title, url, lstr "fetch_failed"⟩
  | some html =>
    if html = [] then .inr ⟨title, url, lstr "fetch_failed"⟩
    else
      match metaValue html (lstr "og:description") with
      | none => .inr ⟨title, url, lstr "no_description"⟩
      | some desc =>
        if desc = [] then .inr ⟨title, url, lstr "no_description"⟩
        else
          match pyOrOpt (metaValue html (lstr "og:image"))
              (metaValue html (lstr "og:image:secure_url")) with
          | none => .inr ⟨title, url, lstr "no_image"⟩
          | some img =>
            if img = [] then .inr ⟨title, url, lstr "no_image"⟩
            else
              let canonicalUrl := normUrl (pyOrStr (metaValue html (lstr "og:url")) url)
              let content := extract_recipe_content desc
              let asciiIngredients := content.1.map (to_ascii nfkd)
              let asciiSteps := content.2.map (to_ascii nfkd)
              let inferredTags := infer_tags title content.1
              let asciiTags := inferredTags.map (to_ascii nfkd)
              let asciiMealTypes :=
                (infer_meal_types title content.1 inferredTags).map (to_ascii nfkd)
              .inl
                { title := to_ascii nfkd title
                  sourceUrl := to_ascii nfkd canonicalUrl
                  imageUrl := to_ascii nfkd img
                  ingredients := asciiIngredients
                  steps := if asciiSteps ≠ [] then some asciiSteps else none
                  tags := if asciiTags ≠ [] then some asciiTags else none
                  mealTypes := if asciiMealTypes ≠ [] then some asciiMealTypes else none
                  notes := if asciiIngredients = [] then some NOTES_TEXT else none
                  descriptionPreview :=
                    if asciiIngredients = [] then
                      some ((to_ascii nfkd (joinWith ' ' ((pySplitlines desc).take 4))).take 280)
                    else none }

/-- The assembler loop over the (title, url) pairs, accumulating the
`results` and `failures` lists in input order. -/
def main_loop (fetchHtml : List Char → Option (List Char))
    (metaValue : List Char → List Char → Option (List Char))
    (normUrl nfkd : List Char → List Char) :
    List (List Char × List Char) → List RecipeEntry × List FailureRecord
  | [] => ([], [])
  | (title, url) :: rest =>
    let r := main_loop fetchHtml metaValue normUrl nfkd rest
    match main_process_item fetchHtml metaValue normUrl nfkd title url with
    | .inl e => (e :: r.1, r.2)
    | .inr f => (r.1, f :: r.2)

/-- C2: for every run of the assembler loop — every fetch/meta
collaborator behaviour and every input pair list — the number of emitted
records plus the number of failure records equals the number of input
pairs; each pair contributes exactly one of the two and none is
dropped. -/
theorem C2_loop_conservation :
    ∀ (fetchHtml : List Char → Option (List Char))
      (metaValue : List Char → List Char → Option (List Char))
      (normUrl nfkd : List Char → List Char)
      (pairs : List (List Char × List Char)),
      (main_loop fetchHtml metaValue normUrl nfkd pairs).1.length +
        (main_loop fetchHtml metaValue normUrl nfkd pairs).2.length = pairs.length := by
  intro f m n k pairs
  induction pairs with
  | nil => rfl
  | cons p rest ih =>
    obtain ⟨t, u⟩ := p
    simp only [main_loop]
    cases main_process_item f m n k t u <;> simp [List.length_cons] <;> omega

/-- C1: whenever the loop body reaches assembly (fetch succeeded,
description and image present) and ingredient extraction on the
description returns the empty list, the emitted record has empty
ingredients, `notes` populated with the fixed advisory string,
`descriptionPreview` populated with the first four lines of the raw
description joined by spaces, ASCII-normalised and truncated to 280,
and hence a preview length of at most 280 characters. -/
theorem C1_degraded_record :
    ∀ (fetchHtml : List Char → Option (List Char))
      (metaValue : List Char → List Char → Option (List Char))
      (normUrl nfkd : List Char → List Char)
      (title url html desc img : List Char),
      fetchHtml url = some html → html ≠ [] →
      metaValue html (lstr "og:description") = some desc → desc ≠ [] →
      pyOrOpt (metaValue html (lstr "og:image"))
          (metaValue html (lstr "og:image:secure_url")) = some img → img ≠ [] →
      (extract_recipe_content desc).1 = [] →
      ∃ e : RecipeEntry,
        main_process_item fetchHtml metaValue normUrl nfkd title url = .inl e ∧
        e.ingredients = [] ∧
        e.notes = some NOTES_TEXT ∧
        e.descriptionPreview =
          some ((to_ascii nfkd (joinWith ' ' ((pySplitlines desc).take 4))).take 280) ∧
        (∀ p, e.descriptionPreview = some p → p.length ≤ 280) := by
  intro f m n k title url html desc img h1 h2 h3 h4 h5 h6 h7
  simp only [main_process_item, h1, h3, h5, if_neg h2, if_neg h4, if_neg h6, h7, List.map_nil]
  refine ⟨_, rfl, rfl, rfl, rfl, ?_⟩
  intro p hp
  simp only [if_true] at hp
  cases Option.some.inj hp
  exact List.length_take_le 280 _

/-- Witness for C1 with concrete collaborators: the description
`Just a nice photo.` yields no ingredients, so the emitted record is the
degraded one. -/
theorem C1_degraded_record_witness :
    ∃ e : RecipeEntry,
      main_process_item (fun _ => some (lstr "<html>"))
          (fun _ p => if p = lstr "og:description" then some (lstr "Just a nice photo.")
            else some (lstr "https://img.example/x.jpg"))
          (fun u => u) (fun s => s) (lstr "Sunset") (lstr "https://u.example/") = .inl e ∧
      e.ingredients = [] ∧
      e.notes = some NOTES_TEXT ∧
      e.descriptionPreview =
        some ((to_ascii (fun s => s)
          (joinWith ' ' ((pySplitlines (lstr "Just a nice photo.")).take 4))).take 280) ∧
      (∀ p, e.descriptionPreview = some p → p.length ≤ 280) :=
  C1_degraded_record (fun _ => some (lstr "<html>"))
    (fun _ p => if p = lstr "og:description" then some (lstr "Just a nice photo.")
      else some (lstr "https://img.example/x.jpg"))
    (fun u => u) (fun s => s) (lstr "Sunset") (lstr "https://u.example/")
    (lstr "<html>") (lstr "Just a nice photo.") (lstr "https://img.example/x.jpg")
    rfl (by decide) (by decide) (by decide) (by decide) (by decide) (by decide)

/-! ### The Content-Stream Tokenizer: `parse_pdf_pairs` lines 307-336

Raw document bytes are `Nat` values below 256; `zlib.decompress` is the
`inflate` function parameter (`none` models the exception the source
catches with `except Exception: pass`). -/

/-- Byte-string view of an ASCII string literal. -/
def bstr (s : String) : List Nat := s.data.map Char.toNat

/-- Lazy (leftmost-shortest) split at the first occurrence of `needle`:
the pieces before and after it. -/
def findSplit (needle : List Nat) : List Nat → Option (List Nat × List Nat)
  | [] => if needle.isPrefixOf ([] : List Nat) then some ([], []) else none
  | b :: r =>
    if needle.isPrefixOf (b :: r) then some ([], (b :: r).drop needle.length)
    else
      match findSplit needle r with
      | some (pre, rest) => some (b :: pre, rest)
      | none => none

/-- One attempted match of `stream\r?\n(.*?)endstream` at the current
position: the literal `stream`, a greedy optional CR that must be
followed by LF, then the lazy group up to the first `endstream`;
returns the group and the remainder after the match. -/
def matchStreamAt (t : List Nat) : Option (List Nat × List Nat) :=
  if (bstr "stream").isPrefixOf t then
    match t.drop 6 with
    | 13 :: 10 :: body => findSplit (bstr "endstream") body
    | 10 :: body => findSplit (bstr "endstream") body
    | _ => none
  else none

/-- `re.finditer(br"stream\r?\n(.*?)endstream", raw, re.DOTALL)`:
leftmost non-overlapping matches, scanning forward one byte at a time;
the fuel bounds the number of scan steps and `length + 1` always
suffices since every step consumes at least one byte. -/
def pdfStreamsGo : Nat → List Nat → List (List Nat)
  | 0, _ => []
  | fuel + 1, t =>
    match matchStreamAt t with
    | some (content, rest) => content :: pdfStreamsGo fuel rest
    | none =>
      match t with
      | [] => []
      | _ :: r => pdfStreamsGo fuel r

/-- All `stream ... endstream` group contents of the document. -/
def pdfStreams (raw : List Nat) : List (List Nat) :=
  pdfStreamsGo (raw.length + 1) raw

/-- Per-region bytes (lines 312-316): strip all leading CR/LF from the
group (`lstrip(b"\r\n")`), attempt `zlib.decompress`, and on failure
keep the raw bytes. -/
def streamBytes (inflate : List Nat → Option (List Nat)) (content : List Nat) : List Nat :=
  let s := content.dropWhile fun b => b = 13 || b = 10
  match inflate s with
  | some d => d
  | none => s

/-- `.decode("latin-1", errors="ignore")`: every byte below 256 maps to
the code point of the same value, so decoding never fails. -/
def decodeLatin1 (bs : List Nat) : List Char := bs.map fun b => Char.ofNat (b % 256)

/-- Match `\s*` then the literal `tj` at `v`, returning the remainder;
since the literal starts with a non-space character the whitespace run
must be consumed entirely. -/
def tjSuffix (tj : List Char) (v : List Char) : Option (List Char) :=
  let v' := v.dropWhile isPySpace
  if tj.isPrefixOf v' then some (v'.drop tj.length) else none

/-- Lazy scan for the `]` closing a `TJ` array: the first `]` whose
suffix is `\s*TJ` ends the group (`.*?` with `re.DOTALL` matches any
character, including earlier unmatched `]`). -/
def scanArrayInner (acc : List Char) : List Char → Option (List Char × List Char)
  | [] => none
  | c :: v =>
    if c = ']' then
      match tjSuffix (lstr "TJ") v with
      | some rest => some (acc.reverse, rest)
      | none => scanArrayInner (c :: acc) v
    else scanArrayInner (c :: acc) v

/-- One attempted match of `\[(.*?)\]\s*TJ` at the current position. -/
def matchTJAt : List Char → Option (List Char × List Char)
  | [] => none
  | c :: v => if c = '[' then scanArrayInner [] v else none

/-- `re.findall(r"\[(.*?)\]\s*TJ", content, flags=re.DOTALL)`: leftmost
non-overlapping array groups. -/
def findTJGo : Nat → List Char → List (List Char)
  | 0, _ => []
  | fuel + 1, t =>
    match matchTJAt t with
    | some (inner, rest) => inner :: findTJGo fuel rest
    | none =>
      match t with
      | [] => []
      | _ :: r => findTJGo fuel r

/-- All `TJ` array groups of a region. -/
def findTJ (content : List Char) : List (List Char) :=
  findTJGo (content.length + 1) content

/-- Lazy scan for the `)` closing a parenthesized literal; without
`re.DOTALL` the group may not span a newline. -/
def scanParenInner (acc : List Char) : List Char → Option (List Char × List Char)
  | [] => none
  | c :: v =>
    if c = ')' then some (acc.reverse, v)
    else if c = '\n' then none
    else scanParenInner (c :: acc) v

/-- One attempted match of `\((.*?)\)` at the current position. -/
def matchParenAt : List Char → Option (List Char × List Char)
  | [] => none
  | c :: v => if c = '(' then scanParenInner [] v else none

/-- `re.findall(r"\((.*?)\)", array)`: the parenthesized literals of a
`TJ` array. -/
def findParensGo : Nat → List Char → List (List Char)
  | 0, _ => []
  | fuel + 1, t =>
    match matchParenAt t with
    | some (inner, rest) => inner :: findParensGo fuel rest
    | none =>
      match t with
      | [] => []
      | _ :: r => findParensGo fuel r

/-- All parenthesized literals of a `TJ` array group. -/
def findParens (inner : List Char) : List (List Char) :=
  findParensGo (inner.length + 1) inner

/-- Lazy scan for the `)` of `\((.*?)\)\s*Tj`: the first `)` whose
suffix is `\s*Tj` ends the group; the group may not span a newline. -/
def scanParenTjInner (acc : List Char) : List Char → Option (List Char × List Char)
  | [] => none
  | c :: v =>
    if c = ')' then
      match tjSuffix (lstr "Tj") v with
      | some rest => some (acc.reverse, rest)
      | none => scanParenTjInner (c :: acc) v
    else if c = '\n' then none
    else scanParenTjInner (c :: acc) v

/-- One attempted match of `\((.*?)\)\s*Tj` at the current position. -/
def matchParenTjAt : List Char → Option (List Char × List Char)
  | [] => none
  | c :: v => if c = '(' then scanParenTjInner [] v else none

/-- `re.findall(r"\((.*?)\)\s*Tj", content)`: leftmost non-overlapping
single-show literals. -/
def findTjSinglesGo : Nat → List Char → List (List Char)
  | 0, _ => []
  | fuel + 1, t =>
    match matchParenTjAt t with
    | some (inner, rest) => inner :: findTjSinglesGo fuel rest
    | none =>
      match t with
      | [] => []
      | _ :: r => findTjSinglesGo fuel r

/-- All single-show literals of a region. -/
def findTjSingles (content : List Char) : List (List Char) :=
  findTjSinglesGo (content.length + 1) content

/-- Fragments of one decoded region (lines 320-329): all decoded `TJ`
arrays whose text is non-blank, then all decoded `Tj` strings whose text
is non-blank, in that order, exactly as the two `findall` loops run. -/
def extractFragments (content : List Char) : List (List Char) :=
  ((findTJ content).filterMap fun inner =>
    let text := ((findParens inner).map decode_pdf_string).flatten
    if pyStrip text ≠ [] then some text else none) ++
  ((findTjSingles content).filterMap fun s =>
    let text := decode_pdf_string s
    if pyStrip text ≠ [] then some text else none)

/-- The whole tokenization of `parse_pdf_pairs` (lines 307-329): locate
the stream regions, decompress-or-fallback, latin-1 decode, and collect
the non-blank fragments of every region in order. -/
def extract_pdf_texts (inflate : List Nat → Option (List Nat)) (raw : List Nat) :
    List (List Char) :=
  ((pdfStreams raw).map fun r => decodeLatin1 (streamBytes inflate r)).flatMap
    extractFragments

/-- The line builder of `parse_pdf_pairs` (lines 331-336): split each
fragment on LF, strip, drop blanks. -/
def pdfFragmentLines (texts : List (List Char)) : List (List Char) :=
  texts.flatMap fun t => ((pySplitOn '\n' t).map pyStrip).filter (· ≠ [])

/-- `parse_pdf_pairs` (lines 307-374) end to end, with the document
bytes and the deflate collaborator as inputs. -/
def parse_pdf_pairs (inflate : List Nat → Option (List Nat)) (raw : List Nat) :
    List (List Char × List Char) :=
  parse_pdf_pairs_lines (pdfFragmentLines (extract_pdf_texts inflate raw))

/-- C8: content-stream tokenization is a total function of the raw bytes
and the decompressor's behaviour (so it never raises); every fragment it
returns is non-blank (a region with no decodable show operators simply
contributes nothing); and a decompressor that fails on a region is
interchangeable with one that returns the region's bytes unchanged — on
failure the region is treated as already-decompressed raw bytes. -/
theorem C8_tokenizer_total :
    (∀ (inflate : List Nat → Option (List Nat)) (raw : List Nat),
       ∀ t ∈ extract_pdf_texts inflate raw, pyStrip t ≠ []) ∧
    (∀ (inflate₁ inflate₂ : List Nat → Option (List Nat)) (raw : List Nat),
       (∀ r, inflate₁ r = inflate₂ r ∨ (inflate₁ r = none ∧ inflate₂ r = some r)) →
       extract_pdf_texts inflate₁ raw = extract_pdf_texts inflate₂ raw) := by
  constructor
  · intro inflate raw t ht
    simp only [extract_pdf_texts, List.mem_flatMap, List.mem_map] at ht
    obtain ⟨content, -, hmem⟩ := ht
    simp only [extractFragments, List.mem_append, List.mem_filterMap] at hmem
    rcases hmem with ⟨inner, -, he⟩ | ⟨s, -, he⟩ <;> split at he
    · exact (Option.some.inj he) ▸ (by assumption)
    · exact Option.noConfusion he
    · exact (Option.some.inj he) ▸ (by assumption)
    · exact Option.noConfusion he
  · intro f1 f2 raw h
    simp only [extract_pdf_texts]
    congr 1
    refine List.map_congr_left fun r _ => ?_
    simp only [streamBytes]
    rcases h (r.dropWhile fun b => b = 13 || b = 10) with he | ⟨h1, h2⟩
    · rw [he]
    · rw [h1, h2]

/-- Witness for C8: a concrete document with one literal (uncompressed)
stream containing a single `Tj` show; the failing decompressor and the
identity decompressor agree, and the extracted fragment is non-blank. -/
theorem C8_tokenizer_total_witness :
    (pyStrip (lstr "Hi") ≠ [] ∧
      lstr "Hi" ∈ extract_pdf_texts (fun _ => none)
        (bstr "xstream\nBT (Hi) Tj ET\nendstream y")) ∧
    extract_pdf_texts (fun _ => none) (bstr "xstream\nBT (Hi) Tj ET\nendstream y") =
      extract_pdf_texts some (bstr "xstream\nBT (Hi) Tj ET\nendstream y") :=
  ⟨⟨C8_tokenizer_total.1 (fun _ => none) (bstr "xstream\nBT (Hi) Tj ET\nendstream y")
      (lstr "Hi") (by decide), by decide⟩,
   C8_tokenizer_total.2 (fun _ => none) some (bstr "xstream\nBT (Hi) Tj ET\nendstream y")
     (fun _ => Or.inr ⟨rfl, rfl⟩)⟩

/-! ### The Meta-Tag Resolver: `cache_source_preview_images.py` lines 35-46 and 148-180

`urljoin` and `html.unescape` are `urllib`/`html` collaborators and
enter as function parameters.  The regex
`<meta[^>]*{attr}\s*=\s*(["\']){value}\1[^>]*>` is embedded by its
derived operational meaning: every character of the match before the
final `[^>]*>` is itself not `>`, so a match starting at a given
position spans exactly up to the first `>` after the tag literal, and
exists exactly when an `attr = "value"` occurrence (case-insensitive,
either quote style, `\s*` around `=`) lies in that `>`-free window. -/

/-- One attempted `attr\s*=\s*(["'])value\1` match at the head of a
window suffix, for any of the alternative `values` (the `<link>`
pattern alternates `image_src|thumbnail`). -/
def attrValHere (attr : List Char) (values : List (List Char)) (s : List Char) : Bool :=
  ciPre attr s &&
    (match (s.drop attr.length).dropWhile isPySpace with
     | e :: s2 =>
       decide (e = '=') &&
         (match s2.dropWhile isPySpace with
          | q :: s4 =>
            (q == '"' || q == Char.ofNat 39) &&
              values.any fun v =>
                ciPre v s4 &&
                  (match s4.drop v.length with
                   | q2 :: _ => q2 == q
                   | [] => false)
          | [] => false)
     | [] => false)

/-- Whether some suffix of the window carries an `attr="value"`
occurrence. -/
def attrValIn (attr : List Char) (values : List (List Char)) : List Char → Bool
  | [] => false
  | c :: r => attrValHere attr values (c :: r) || attrValIn attr values r

/-- One attempted tag match at the current position: the tag literal
(case-insensitively), then the `>`-free window up to the first `>`,
which must exist and contain an `attr="value"` occurrence; the returned
`group(0)` spans up to and including that `>`. -/
def matchTagAt (tagLit attr : List Char) (values : List (List Char)) (t : List Char) :
    Option (List Char) :=
  if ciPre tagLit t then
    let tl := t.drop tagLit.length
    let w := tl.takeWhile (· ≠ '>')
    match tl.drop w.length with
    | [] => none
    | _ :: _ =>
      if attrValIn attr values w then some (t.take (tagLit.length + w.length + 1))
      else none
  else none

/-- `re.search` of the tag pattern: leftmost match, scanning forward one
character at a time. -/
def searchTagGo (tagLit attr : List Char) (values : List (List Char)) :
    List Char → Option (List Char)
  | [] => none
  | c :: r =>
    match matchTagAt tagLit attr values (c :: r) with
    | some g => some g
    | none => searchTagGo tagLit attr values r

/-- `_meta_regex(attr, value).search(snippet)` (lines 148-150), as the
matched `group(0)` text. -/
def searchMeta (attr value text : List Char) : Option (List Char) :=
  searchTagGo (lstr "<meta") attr [value] text

/-- The `<link rel="image_src"|"thumbnail">` search of lines 170-174. -/
def searchLink (text : List Char) : Option (List Char) :=
  searchTagGo (lstr "<link") (lstr "rel") [lstr "image_src", lstr "thumbnail"] text

/-- Lazy scan to the closing quote of `(["'])(.*?)\1`; without
`re.DOTALL` the quoted group may not span a newline. -/
def scanQuoted (q : Char) (acc : List Char) : List Char → Option (List Char)
  | [] => none
  | c :: v =>
    if c = q then some acc.reverse
    else if c = '\n' then none
    else scanQuoted q (c :: acc) v

/-- One attempted `attrName\s*=\s*(["'])(.*?)\1` match at the head of a
tag suffix, returning the raw quoted group. -/
def attrContentHere (attrName : List Char) (s : List Char) : Option (List Char) :=
  if ciPre attrName s then
    match (s.drop attrName.length).dropWhile isPySpace with
    | e :: s2 =>
      if e = '=' then
        match s2.dropWhile isPySpace with
        | q :: s4 =>
          if q = '"' ∨ q = Char.ofNat 39 then scanQuoted q [] s4 else none
        | [] => none
      else none
    | [] => none
  else none

/-- Leftmost `attrName="..."` occurrence inside a tag text. -/
def extractAttrGo (attrName : List Char) : List Char → Option (List Char)
  | [] => none
  | c :: r =>
    match attrContentHere attrName (c :: r) with
    | some v => some v
    | none => extractAttrGo attrName r

/-- `_extract_content` (lines 153-157): the tag's `content` attribute,
stripped then HTML-entity-unescaped. -/
def _extract_content (unescape : List Char → List Char) (tag : List Char) :
    Option (List Char) :=
  (extractAttrGo (lstr "content") tag).map fun v => unescape (pyStrip v)

/-- `META_CANDIDATES` (lines 35-46), in priority order. -/
def META_CANDIDATES : List (List Char × List Char) :=
  [(lstr "property", lstr "og:image:secure_url"),
   (lstr "property", lstr "og:image:url"),
   (lstr "property", lstr "og:image"),
   (lstr "name", lstr "og:image"),
   (lstr "property", lstr "twitter:image"),
   (lstr "name", lstr "twitter:image"),
   (lstr "property", lstr "twitter:image:src"),
   (lstr "name", lstr "twitter:image:src"),
   (lstr "itemprop", lstr "image"),
   (lstr "name", lstr "thumbnail")]

/-- The `for attr, value in META_CANDIDATES` loop (lines 163-168):
return the first candidate whose tag is found and whose `content` is
non-empty. -/
def candidatesLoop (urljoin : List Char → List Char → List Char)
    (unescape : List Char → List Char) (snippet base : List Char) :
    List (List Char × List Char) → Option (List Char)
  | [] => none
  | (attr, value) :: rest =>
    match searchMeta attr value snippet with
    | some tag =>
      match _extract_content unescape tag with
      | some content =>
        if content ≠ [] then some (urljoin base content)
        else candidatesLoop urljoin unescape snippet base rest
      | none => candidatesLoop urljoin unescape snippet base rest
    | none => candidatesLoop urljoin unescape snippet base rest

/-- `_extract_preview_from_html` (lines 160-180): scan only the first
200,000 characters; try the meta candidates in priority order; fall back
to a `<link rel=image_src|thumbnail>` tag's `href`. -/
def _extract_preview_from_html (urljoin : List Char → List Char → List Char)
    (unescape : List Char → List Char) (htmlText base : List Char) : Option (List Char) :=
  let snippet := htmlText.take 200000
  match candidatesLoop urljoin unescape snippet base META_CANDIDATES with
  | some r => some r
  | none =>
    match searchLink snippet with
    | some tag =>
      match extractAttrGo (lstr "href") tag with
      | some v => some (urljoin base (unescape (pyStrip v)))
      | none => none
    | none => none

/-- A twitter:image meta tag with its own image value. -/
def twTag : List Char :=
  lstr "<meta property=\"twitter:image\" content=\"https://t.example/t.png\">"

/-- An og:image meta tag with a different image value. -/
def ogTag : List Char :=
  lstr "<meta property=\"og:image\" content=\"https://og.example/o.png\">"

/-- C9 amended behaviour: when both tags lie inside the scanned
200,000-character prefix, the higher-priority candidate (`og:image`
outranks `twitter:image`) wins regardless of the document order of the
two tags.  The collaborators are instantiated with the behaviour they
have on these values: `urljoin` passes an absolute reference through and
`html.unescape` is the identity on entity-free text. -/
theorem C9_priority_in_window :
    _extract_preview_from_html (fun _ v => v) (fun s => s) (ogTag ++ twTag)
        (lstr "https://base.example/") = some (lstr "https://og.example/o.png") ∧
    _extract_preview_from_html (fun _ v => v) (fun s => s) (twTag ++ ogTag)
        (lstr "https://base.example/") = some (lstr "https://og.example/o.png") := by
  constructor <;> decide

/-! Correctness lemmas for the tag search: a successful search requires
a case-insensitive occurrence of the candidate value in the scanned
text.  They drive the counterexample for the 200,000-character window,
where evaluation over the filler is infeasible. -/

lemma ciPre_iff (p t : List Char) : ciPre p t = true ↔ pyLower p <+: pyLower t := by
  induction p generalizing t with
  | nil => simp [ciPre, pyLower]
  | cons a ps ih =>
    cases t with
    | nil => simp [ciPre, pyLower]
    | cons c cs =>
      simp [ciPre, ciEqChar, pyLower, List.cons_prefix_cons, ih]

lemma attrValHere_infix (attr : List Char) (values : List (List Char)) (s : List Char)
    (h : attrValHere attr values s = true) :
    ∃ v ∈ values, pyLower v <:+: pyLower s := by
  rw [attrValHere, Bool.and_eq_true] at h
  obtain ⟨-, h2⟩ := h
  cases he : (s.drop attr.length).dropWhile isPySpace with
  | nil => rw [he] at h2; exact absurd h2 (by simp)
  | cons e s2 =>
    rw [he] at h2
    rw [Bool.and_eq_true] at h2
    obtain ⟨-, h3⟩ := h2
    cases he2 : s2.dropWhile isPySpace with
    | nil => rw [he2] at h3; exact absurd h3 (by simp)
    | cons q s4 =>
      rw [he2] at h3
      rw [Bool.and_eq_true] at h3
      obtain ⟨-, h4⟩ := h3
      rw [List.any_eq_true] at h4
      obtain ⟨v, hv, hvp⟩ := h4
      rw [Bool.and_eq_true] at hvp
      obtain ⟨hvp, -⟩ := hvp
      have hs4 : s4 <:+ s := by
        have t1 : s4 <:+ q :: s4 := List.suffix_cons q s4
        have t2 : q :: s4 <:+ s2 := he2 ▸ List.dropWhile_suffix isPySpace
        have t3 : s2 <:+ e :: s2 := List.suffix_cons e s2
        have t4 : e :: s2 <:+ s.drop attr.length := he ▸ List.dropWhile_suffix isPySpace
        have t5 : s.drop attr.length <:+ s := List.drop_suffix attr.length s
        exact t1.trans (t2.trans (t3.trans (t4.trans t5)))
      refine ⟨v, hv, ?_⟩
      exact ((ciPre_iff v s4).1 hvp).isInfix.trans (hs4.map pyLowerChar).isInfix

lemma attrValIn_infix (attr : List Char) (values : List (List Char)) (w : List Char)
    (h : attrValIn attr values w = true) :
    ∃ v ∈ values, pyLower v <:+: pyLower w := by
  induction w with
  | nil => exact absurd h (by simp [attrValIn])
  | cons c r ih =>
    rw [attrValIn, Bool.or_eq_true] at h
    rcases h with h | h
    · exact attrValHere_infix _ _ _ h
    · obtain ⟨v, hv, hinf⟩ := ih h
      exact ⟨v, hv, List.infix_cons hinf⟩

lemma matchTagAt_infix (tagLit attr : List Char) (values : List (List Char)) (t g : List Char)
    (h : matchTagAt tagLit attr values t = some g) :
    ∃ v ∈ values, pyLower v <:+: pyLower t := by
  simp only [matchTagAt] at h
  split at h
  · split at h
    · exact absurd h (by simp)
    · split at h
      · rename_i hin
        obtain ⟨v, hv, hinf⟩ := attrValIn_infix _ _ _ hin
        refine ⟨v, hv, ?_⟩
        have hw : (t.drop tagLit.length).takeWhile (· ≠ '>') <+: t.drop tagLit.length :=
          List.takeWhile_prefix _
        have ht : t.drop tagLit.length <:+ t := List.drop_suffix _ _
        exact hinf.trans ((hw.map pyLowerChar).isInfix.trans (ht.map pyLowerChar).isInfix)
      · exact absurd h (by simp)
  · exact absurd h (by simp)

lemma searchTagGo_infix (tagLit attr : List Char) (values : List (List Char)) (text g : List Char)
    (h : searchTagGo tagLit attr values text = some g) :
    ∃ v ∈ values, pyLower v <:+: pyLower text := by
  induction text with
  | nil => exact absurd h (by simp [searchTagGo])
  | cons c r ih =>
    rw [searchTagGo] at h
    cases hm : matchTagAt tagLit attr values (c :: r) with
    | some g' => exact matchTagAt_infix _ _ _ _ _ hm
    | none =>
      rw [hm] at h
      obtain ⟨v, hv, hinf⟩ := ih h
      exact ⟨v, hv, List.infix_cons hinf⟩

lemma searchMeta_eq_none (attr value text pre : List Char)
    (hp : pre <+: pyLower value) (h : ¬ pre <:+: pyLower text) :
    searchMeta attr value text = none := by
  cases he : searchMeta attr value text with
  | none => rfl
  | some g =>
    obtain ⟨v, hv, hinf⟩ := searchTagGo_infix _ _ _ _ _ he
    rw [List.mem_singleton] at hv
    subst hv
    exact absurd (hp.isInfix.trans hinf) h

lemma not_infix_append_replicate (pat a : List Char) (c : Char) (M : Nat)
    (hpat : pat ≠ []) (hc : c ∉ pat)
    (ha : ∀ i ≤ a.length, ¬ pat <+: a.drop i) :
    ¬ pat <:+: a ++ List.replicate M c := by
  rintro ⟨s, t, hst⟩
  have hp : pat <+: (a ++ List.replicate M c).drop s.length := by
    rw [← hst, List.append_assoc, List.drop_left]
    exact ⟨t, rfl⟩
  by_cases hi : s.length ≤ a.length
  · rw [List.drop_append_of_le_length hi] at hp
    by_cases hl : pat.length ≤ (a.drop s.length).length
    · apply ha s.length hi
      have h2 : pat = (a.drop s.length).take pat.length := by
        have h1 := List.prefix_iff_eq_take.1 hp
        rwa [List.take_append_of_le_length hl] at h1
      exact List.prefix_iff_eq_take.2 h2
    · push_neg at hl
      have e1 := hp.getElem (n := (a.drop s.length).length) hl
      rw [List.getElem_append_right (le_refl (a.drop s.length).length)] at e1
      rw [List.getElem_replicate] at e1
      exact hc (e1 ▸ List.getElem_mem _)
  · push_neg at hi
    have hsplit : s.length = a.length + (s.length - a.length) := by omega
    have hrep : (a ++ List.replicate M c).drop s.length =
        List.replicate (M - (s.length - a.length)) c := by
      rw [hsplit, List.drop_append, List.drop_replicate]
      congr 1
      omega
    rw [hrep] at hp
    obtain ⟨p0, prest, rfl⟩ := List.exists_cons_of_ne_nil hpat
    have e1 := hp.getElem (n := 0) (by simp)
    rw [List.getElem_replicate] at e1
    exact hc (e1 ▸ List.mem_cons_self _ _)

lemma candidatesLoop_cons_none (u : List Char → List Char → List Char)
    (e : List Char → List Char) (s b a v : List Char)
    (rest : List (List Char × List Char)) (h : searchMeta a v s = none) :
    candidatesLoop u e s b ((a, v) :: rest) = candidatesLoop u e s b rest := by
  simp only [candidatesLoop, h]

lemma candidatesLoop_cons_found (u : List Char → List Char → List Char)
    (e : List Char → List Char) (s b a v tag content : List Char)
    (rest : List (List Char × List Char))
    (h : searchMeta a v s = some tag) (hc : _extract_content e tag = some content)
    (hne : content ≠ []) :
    candidatesLoop u e s b ((a, v) :: rest) = some (u b content) := by
  simp only [candidatesLoop, h, hc]
  rw [if_pos hne]

lemma extract_preview_of_loop (u : List Char → List Char → List Char)
    (e : List Char → List Char) (h b r : List Char)
    (hl : candidatesLoop u e (h.take 200000) b META_CANDIDATES = some r) :
    _extract_preview_from_html u e h b = some r := by
  simp only [_extract_preview_from_html]
  rw [hl]

/-- A document whose twitter:image tag lies at the start and whose
og:image tag lies beyond the 200,000-character scan window. -/
def bigDoc : List Char := twTag ++ (List.replicate 200000 'x' ++ ogTag)

lemma bigDoc_take :
    List.take 200000 bigDoc = twTag ++ List.replicate 199935 'x' := by
  have hlen : twTag.length = 65 := by decide
  unfold bigDoc
  rw [List.take_append_eq_append_take, List.take_of_length_le (by rw [hlen]; norm_num), hlen]
  norm_num
  have hle : (199935 : Nat) ≤ (List.replicate 200000 'x').length := by
    rw [List.length_replicate]
    norm_num
  rw [List.take_append_of_le_length hle, List.take_replicate,
    Nat.min_eq_left (by norm_num)]

lemma snippet_no_og :
    ¬ lstr "og:image" <:+: pyLower (twTag ++ List.replicate 199935 'x') := by
  have hlow : pyLower (twTag ++ List.replicate 199935 'x') =
      pyLower twTag ++ List.replicate 199935 'x' := by
    simp only [pyLower, List.map_append, List.map_replicate,
      show pyLowerChar 'x' = 'x' from by decide]
  rw [hlow]
  exact not_infix_append_replicate _ _ _ _ (by decide) (by decide) (by decide)

/-- C9 counterexample: the resolver scans only the first 200,000
characters, so for this document — which contains both a twitter:image
and an og:image meta tag with different values, the og:image tag lying
beyond the window — the lower-priority twitter:image value is returned.
The resolver's result therefore does depend on where the tags occur in
the document, refuting the claim as stated. -/
theorem C9_window_counterexample :
    _extract_preview_from_html (fun _ v => v) (fun s => s) bigDoc
        (lstr "https://base.example/") = some (lstr "https://t.example/t.png") ∧
    (∃ u w, bigDoc = u ++ ogTag ++ w) ∧
    lstr "https://t.example/t.png" ≠ lstr "https://og.example/o.png" := by
  refine ⟨?_, ⟨twTag ++ List.replicate 200000 'x', [],
    by rw [List.append_nil, List.append_assoc]; rfl⟩, by decide⟩
  have c1 : searchMeta (lstr "property") (lstr "og:image:secure_url")
      (twTag ++ List.replicate 199935 'x') = none :=
    searchMeta_eq_none _ _ _ (lstr "og:image") (by decide) snippet_no_og
  have c2 : searchMeta (lstr "property") (lstr "og:image:url")
      (twTag ++ List.replicate 199935 'x') = none :=
    searchMeta_eq_none _ _ _ (lstr "og:image") (by decide) snippet_no_og
  have c3 : searchMeta (lstr "property") (lstr "og:image")
      (twTag ++ List.replicate 199935 'x') = none :=
    searchMeta_eq_none _ _ _ (lstr "og:image") (by decide) snippet_no_og
  have c4 : searchMeta (lstr "name") (lstr "og:image")
      (twTag ++ List.replicate 199935 'x') = none :=
    searchMeta_eq_none _ _ _ (lstr "og:image") (by decide) snippet_no_og
  have c5 : searchMeta (lstr "property") (lstr "twitter:image")
      (twTag ++ List.replicate 199935 'x') = some twTag := by decide
  have hloop : candidatesLoop (fun _ v => v) (fun s => s)
      (twTag ++ List.replicate 199935 'x') (lstr "https://base.example/")
      META_CANDIDATES = some (lstr "https://t.example/t.png") := by
    rw [META_CANDIDATES]
    rw [candidatesLoop_cons_none _ _ _ _ _ _ _ c1,
      candidatesLoop_cons_none _ _ _ _ _ _ _ c2,
      candidatesLoop_cons_none _ _ _ _ _ _ _ c3,
      candidatesLoop_cons_none _ _ _ _ _ _ _ c4,
      candidatesLoop_cons_found _ _ _ _ _ _ twTag (lstr "https://t.example/t.png") _ c5
        (by decide) (by decide)]
  exact extract_preview_of_loop _ _ _ _ _ (by rw [bigDoc_take]; exact hloop)

end Recifind
